import Mathlib

/-
Verification of the sheepdog runtime substrate against its specification.

The definitions below are a shallow embedding of two C source files:
  * the work-queue engine (worker threads with grow/shrink hysteresis), and
  * the multi-disk placement layer (md.c): FNV-1a hashing, the vdisk ring,
    per-path initialization, EIO handling and plug/unplug.

Machine integers are modelled as Nat; where a C computation can wrap
(the size_t multiplication in the grow predicate) the reduction modulo
2^64 is written explicitly.  Filesystem and pthread side effects are
modelled by explicit environments recording the outcome of each syscall.
-/

namespace SheepdogSpec

/-! ## Work-queue engine (worker thread pool)

Shallow embedding of the worker-pool scheduler.  A `WorkerInfo` carries the
counters of `struct worker_info` that the grow/shrink logic reads and
writes: the thread-control policy, thread/pending/running counters and the
end-of-shrink-protection timestamp (milliseconds).  Clock reads
(`get_msec_time`) become an explicit `now` argument. -/

/-- Thread-control policy of a queue (`enum wq_thread_control`). -/
inductive WqTc
  | ordered
  | dynamic
  | unlimited
deriving DecidableEq

/-- Modulus of 64-bit machine arithmetic. -/
def U64 : Nat := 2 ^ 64

/-- Largest value of the C type `size_t` (64-bit platform), used as the
roof of an `UNLIMITED` queue. -/
def SIZE_MAX : Nat := 2 ^ 64 - 1

/-- The shrink-protection period `WQ_PROTECTION_PERIOD` (milliseconds). -/
def WQ_PROTECTION_PERIOD : Nat := 1000

/-- Counters of `struct worker_info` read and written by the grow/shrink
logic, all guarded by `pending_lock` in the source. -/
structure WorkerInfo where
  tc : WqTc
  nr_threads : Nat
  nr_pending : Nat
  nr_running : Nat
  tm_end_of_protection : Nat
deriving DecidableEq

/-- Embedding of `wq_get_roof`: 1 for an ordered queue, twice the current
node count for a dynamic queue, `SIZE_MAX` for an unlimited queue.  The
node count read from the membership collaborator is the `nr_nodes`
argument. -/
def wq_get_roof (tc : WqTc) (nr_nodes : Nat) : Nat :=
  match tc with
  | WqTc.ordered => 1
  | WqTc.dynamic => nr_nodes * 2
  | WqTc.unlimited => SIZE_MAX

/-- Embedding of `wq_need_grow`.  The C guard is
`wi->nr_threads < wi->nr_pending + wi->nr_running &&
 wi->nr_threads * 2 <= wq_get_roof(wi->tc)`; the multiplication is done in
`size_t`, hence the explicit reduction modulo 2^64.  When the guard holds
the end-of-protection timestamp is advanced and `true` is returned. -/
def wq_need_grow (wi : WorkerInfo) (nr_nodes now : Nat) : Bool × WorkerInfo :=
  if wi.nr_threads < wi.nr_pending + wi.nr_running ∧
      wi.nr_threads * 2 % U64 ≤ wq_get_roof wi.tc nr_nodes then
    (true, { wi with tm_end_of_protection := now + WQ_PROTECTION_PERIOD })
  else
    (false, wi)

/-- Embedding of `wq_need_shrink`.  When the load is at most half the
thread count the decision is `tm_end_of_protection <= now` and the state is
untouched; otherwise the timestamp is advanced and the decision is
`false`. -/
def wq_need_shrink (wi : WorkerInfo) (now : Nat) : Bool × WorkerInfo :=
  if wi.nr_pending + wi.nr_running ≤ wi.nr_threads / 2 then
    (decide (wi.tm_end_of_protection ≤ now), wi)
  else
    (false, { wi with tm_end_of_protection := now + WQ_PROTECTION_PERIOD })

/-- Embedding of the shrink branch at the top of `worker_routine`'s loop:
evaluate `wq_need_shrink`; when it holds decrement `nr_running` and
`nr_threads` and exit (first component `true`), otherwise proceed with the
possibly updated timestamp. -/
def worker_check_shrink (wi : WorkerInfo) (now : Nat) : Bool × WorkerInfo :=
  let r := wq_need_shrink wi now
  if r.1 then
    (true, { r.2 with nr_running := r.2.nr_running - 1,
                      nr_threads := r.2.nr_threads - 1 })
  else
    (false, r.2)

/-- Embedding of `create_worker_threads`: spawn workers until
`nr_threads` reaches the requested target (each successful
`pthread_create` increments the counter); thread creation is modelled as
succeeding. -/
def create_worker_threads (wi : WorkerInfo) (target : Nat) : WorkerInfo :=
  { wi with nr_threads := max wi.nr_threads target }

/-- Embedding of `queue_work` restricted to the counter updates: increment
`nr_pending`, evaluate the grow predicate on the updated state and, when
it fires, double the thread pool via `create_worker_threads`.  The list
append and condvar signal have no effect on the counters. -/
def queue_work (wi : WorkerInfo) (nr_nodes now : Nat) : WorkerInfo :=
  match wq_need_grow { wi with nr_pending := wi.nr_pending + 1 } nr_nodes now with
  | (true, wi2) => create_worker_threads wi2 (wi2.nr_threads * 2)
  | (false, wi2) => wi2

/-- Counterexample state for claim C3: no load (`0 + 0 ≤ 1 / 2`) but the
protection window is still open at `now = 0`. -/
def wiC3 : WorkerInfo :=
  { tc := WqTc.ordered, nr_threads := 1, nr_pending := 0, nr_running := 0,
    tm_end_of_protection := 2000 }

/-- Witness state for claim C3: shrink fires (no load, protection over). -/
def wiC3w : WorkerInfo :=
  { tc := WqTc.dynamic, nr_threads := 4, nr_pending := 1, nr_running := 1,
    tm_end_of_protection := 300 }

/-- Witness state for claim C4: growth fires on a dynamic queue. -/
def wiC4w : WorkerInfo :=
  { tc := WqTc.dynamic, nr_threads := 1, nr_pending := 1, nr_running := 1,
    tm_end_of_protection := 0 }

/-! ## FNV-1a hashing and the vdisk ring (md.c)

Embedding of `fnv_64a_buf`, `disks_to_vdisks`, `oid_to_vdisk_from` and the
path lookup of `get_object_path`.  Bytes are Nats below 256; the 64-bit
state is kept reduced modulo `U64`. -/

/-- FNV-1a/64 offset basis `FNV1A_64_INIT`. -/
def FNV1A_64_INIT : Nat := 0xcbf29ce484222325

/-- FNV-1a/64 prime. -/
def FNV_64_PRIME : Nat := 0x100000001b3

/-- One step of FNV-1a/64: xor the byte into the state, multiply by the
prime (64-bit wraparound). -/
def fnv_64a_step (h b : Nat) : Nat := (h ^^^ b) * FNV_64_PRIME % U64

/-- Embedding of `fnv_64a_buf`: fold every byte of the buffer into the
running hash. -/
def fnv_64a_buf (bytes : List Nat) (h : Nat) : Nat :=
  bytes.foldl fnv_64a_step h

/-- Little-endian byte decomposition of a machine integer of `w` bytes,
as laid out in memory on the (little-endian) target. -/
def leBytes : Nat → Nat → List Nat
  | 0, _ => []
  | w + 1, x => x % 256 :: leBytes w (x / 256)

/-- Hash of an object identifier:
`fnv_64a_buf(&oid, sizeof(oid), FNV1A_64_INIT)` over the 8 little-endian
bytes of the 64-bit oid. -/
def oid_hash (oid : Nat) : Nat := fnv_64a_buf (leBytes 8 oid) FNV1A_64_INIT

/-- One hash point of the ring (`struct vdisk`): the disk index at ring
build time and the 64-bit id. -/
structure Vdisk where
  idx : Nat
  id : Nat
deriving DecidableEq

/-- Array read `vds[i]` (in-bounds in every execution the theorems talk
about). -/
def vdsGet (vds : List Vdisk) (i : Nat) : Vdisk := vds.getD i ⟨0, 0⟩

/-- Embedding of the binary-search loop of `oid_to_vdisk_from`.  The C
loop `for (;;)` has no built-in bound, so the embedding spends one unit of
fuel per iteration; `none` means the loop is still running after `fuel`
iterations (for every fuel, on a diverging input). -/
def oid_search (vds : List Vdisk) (idv : Nat) : Nat → Nat → Nat → Option Vdisk
  | 0, _, _ => none
  | fuel + 1, start, e =>
    let pos := (e - start) / 2 + start
    if (vdsGet vds pos).id < idv then
      if idv ≤ (vdsGet vds (pos + 1)).id then some (vdsGet vds (pos + 1))
      else oid_search vds idv fuel pos e
    else oid_search vds idv fuel start pos

/-- Embedding of `oid_to_vdisk_from`: hash the oid, return entry 0 when
the hash falls outside `[vds[0].id, vds[nr-1].id]`, otherwise run the
binary-search loop. -/
def oid_to_vdisk_from (vds : List Vdisk) (oid fuel : Nat) : Option Vdisk :=
  if (vdsGet vds (vds.length - 1)).id < oid_hash oid ∨
      oid_hash oid < (vdsGet vds 0).id then
    some (vdsGet vds 0)
  else
    oid_search vds (oid_hash oid) fuel 0 (vds.length - 1)

/-- A member of the multi-disk array (`struct disk`). -/
structure Disk where
  path : String
  nr_vdisks : Nat
  space : Nat
deriving DecidableEq

/-- Bytes of a disk path as stored in `char path[PATH_MAX]`. -/
def path_bytes (s : String) : List Nat := s.data.map Char.toNat

/-- Chain of hash points one disk contributes in `disks_to_vdisks`: for
each point the 4 little-endian bytes of the remaining-disk counter
`nmds` (an `int`) are folded into the running hash, then the path bytes in
reverse order; the running hash is carried from one point to the next. -/
def vdisk_hash_chain (seed : Nat) (revBytes : List Nat) : Nat → Nat → List Nat
  | 0, _ => []
  | i + 1, h =>
    let h1 := fnv_64a_buf revBytes (fnv_64a_buf (leBytes 4 seed) h)
    h1 :: vdisk_hash_chain seed revBytes i h1

/-- The `nr_vdisks` ring points of the disk at traversal position `k` out
of `n`; inside the loop body `nmds` has already been decremented, so its
value is `n - 1 - k`, and `idx` is the position `d_iter - ds = k`. -/
def disk_points (n k : Nat) (d : Disk) : List Vdisk :=
  (vdisk_hash_chain (n - 1 - k) (path_bytes d.path).reverse d.nr_vdisks
      FNV1A_64_INIT).map (fun h => ⟨k, h⟩)

/-- Points of all disks, in traversal order. -/
def points_go (n : Nat) : Nat → List Disk → List Vdisk
  | _, [] => []
  | k, d :: rest => disk_points n k d ++ points_go n (k + 1) rest

/-- Insertion into a list sorted ascending by id. -/
def vd_insert (v : Vdisk) : List Vdisk → List Vdisk
  | [] => [v]
  | w :: ws => if v.id ≤ w.id then v :: w :: ws else w :: vd_insert v ws

/-- Sort by id ascending, modelling `qsort` with `vdisk_cmp` (which
compares ids only; the relative order of equal ids is unspecified by
`qsort`, and insertion sort fixes one such order). -/
def vd_sort : List Vdisk → List Vdisk
  | [] => []
  | v :: vs => vd_insert v (vd_sort vs)

/-- Embedding of `disks_to_vdisks`: generate every disk's points and sort
the ring by id. -/
def disks_to_vdisks (ds : List Disk) : List Vdisk :=
  vd_sort (points_go ds.length 0 ds)

/-- Embedding of the multi-disk branch of `get_object_path`: look the oid
up in the ring built from the disk array and return
`md_disks[vd->idx].path`. -/
def path_for_oid (ds : List Disk) (oid fuel : Nat) : Option String :=
  (oid_to_vdisk_from (disks_to_vdisks ds) oid fuel).map
    (fun vd => (ds.getD vd.idx ⟨"", 0, 0⟩).path)

/-- Ring exhibiting the C1 divergence: sorted ascending, and the hash of
oid 0 equals the minimum id. -/
def ringC1 : List Vdisk := [⟨0, oid_hash 0⟩, ⟨1, oid_hash 0 + 1⟩]

/-- Two-disk array for claim C8. -/
def dsA : List Disk := [⟨"a", 1, 1⟩, ⟨"b", 1, 1⟩]

/-- The same two disks inserted in the opposite order. -/
def dsB : List Disk := [⟨"b", 1, 1⟩, ⟨"a", 1, 1⟩]

/-- Witness arrays for claim C8: same paths and vdisk counts in the same
order, different free-space values. -/
def dsW1 : List Disk := [⟨"a", 1, 5⟩]

/-- Companion of `dsW1` differing only in the space field. -/
def dsW2 : List Disk := [⟨"a", 1, 9⟩]

/-! ## Per-path initialization (`init_path_space`, `get_path_size`)

The filesystem is abstracted by a `PathEnv` recording, for one storage
path, the outcome of each syscall `init_path_space` and `get_path_size`
perform: xattr support probing, `mkdir` of `.stale`, `getxattr` of
`user.md.size`, `statvfs`, the directory scan and `setxattr`. -/

/-- Outcome of `getxattr(path, "user.md.size", ...)`: success with the
stored value, failure with `errno == ENODATA` (attribute absent), or
failure with any other errno. -/
inductive GetxRes
  | ok (v : Nat)
  | nodata
  | err
deriving DecidableEq

/-- Syscall outcomes for one storage path. `objects` lists the sizes of
the live (non-temporary, non-dot) objects under the path, i.e. the values
`get_objsize` returns for the oids the directory scan reports. -/
structure PathEnv where
  xattr_ok : Bool
  mkdir_stale_ok : Bool
  getx : GetxRes
  statvfs_ok : Bool
  f_frsize : Nat
  f_bfree : Nat
  opendir_ok : Bool
  objects : List Nat
  setxattr_ok : Bool
deriving DecidableEq

/-- The free-space figure `statvfs` yields:
`(int64_t)fs.f_frsize * fs.f_bfree`. -/
def free_size (env : PathEnv) : Nat := env.f_frsize * env.f_bfree

/-- Embedding of `get_path_size(path, used)`: returns the pair (return
value, accumulated `*used`).  On `statvfs` failure the size is 0.  With a
null `used` (modelled by `withUsed = false`) the object scan is skipped
entirely; otherwise a failing scan (failed `opendir`) makes the function
return 0, and a successful scan sums the live objects' sizes into
`*used`. -/
def get_path_size (env : PathEnv) (withUsed : Bool) : Nat × Nat :=
  if env.statvfs_ok = false then (0, 0)
  else if withUsed then
    if env.opendir_ok then (free_size env, env.objects.sum) else (0, 0)
  else (free_size env, 0)

/-- Embedding of `init_path_space`: verify xattr support, create
`.stale`, read `user.md.size`; when the attribute is absent compute
`get_path_size(path, NULL)` — note the null `used`, so this is the free
space, not an object scan — store it with `setxattr` and return it.  The
second component is the `user.md.size` attribute after the call.  Any
failing step returns 0. -/
def init_path_space (env : PathEnv) : Nat × GetxRes :=
  if env.xattr_ok = false then (0, env.getx)
  else if env.mkdir_stale_ok = false then (0, env.getx)
  else
    match env.getx with
    | GetxRes.ok v => (v, env.getx)
    | GetxRes.err => (0, env.getx)
    | GetxRes.nodata =>
      if (get_path_size env false).1 = 0 then (0, env.getx)
      else if env.setxattr_ok = false then (0, env.getx)
      else ((get_path_size env false).1, GetxRes.ok (get_path_size env false).1)

/-- Counterexample environment for claim C2: every step succeeds, the
attribute is absent, the path holds one live object of 5 bytes, and the
filesystem reports 100 free bytes. -/
def envC2 : PathEnv :=
  { xattr_ok := true, mkdir_stale_ok := true, getx := GetxRes.nodata,
    statvfs_ok := true, f_frsize := 1, f_bfree := 100, opendir_ok := true,
    objects := [5], setxattr_ok := true }

/-! ## Multi-disk state and operations (md.c)

`MDState` collects the module globals of md.c that the claims read:
the disk array `md_disks` (with `md_nr_disks` equal to its length; array
slots beyond the count are not modelled), the ring `md_vds`,
`sys->enable_md` and `sys->disk_space`.   `init_path_space` outcomes are
abstracted by an environment `env : String → Nat` giving each path's
recorded size (0 = broken path, see `init_path_space` above); `xmkdir`
outcomes by `mk : String → Bool`. -/

/-- Result codes (`SD_RES_*`) returned by the modelled md.c entry
points. -/
inductive SDRes
  | success
  | eio
  | network_error
  | unknown
deriving DecidableEq

/-- `MD_DEFAULT_VDISKS`. -/
def MD_DEFAULT_VDISKS : Nat := 128

/-- The module state of md.c. -/
structure MDState where
  md_disks : List Disk
  md_vds : List Vdisk
  enable_md : Bool
  disk_space : Nat
deriving DecidableEq

/-- Embedding of `path_to_disk_idx`: index of the first disk whose path
matches, `none` for the C return value -1. -/
def path_to_disk_idx : List Disk → String → Option Nat
  | [], _ => none
  | d :: rest, p =>
    if d.path = p then some 0 else (path_to_disk_idx rest p).map (· + 1)

/-- Embedding of `md_add_disk`: a duplicate path or a failed `xmkdir` is
ignored; otherwise the path is appended at position `md_nr_disks - 1`
(vdisk count and space are filled in later by `md_init_space`). -/
def md_add_disk (mk : String → Bool) (p : String) (st : MDState) : MDState :=
  match path_to_disk_idx st.md_disks p with
  | some _ => st
  | none =>
    if mk p = false then st
    else { st with md_disks := st.md_disks ++ [⟨p, 0, 0⟩] }

/-- Embedding of `remove_disk`: shift the tail down over slot `idx` and
decrement the count.  (The residual copy the shift leaves in the last
array slot is beyond `md_nr_disks` and not part of the modelled list.) -/
def remove_disk (idx : Nat) (st : MDState) : MDState :=
  { st with md_disks := st.md_disks.eraseIdx idx }

/-- Embedding of `md_del_disk`: an unknown path is ignored. -/
def md_del_disk (p : String) (st : MDState) : MDState :=
  match path_to_disk_idx st.md_disks p with
  | none => st
  | some i => remove_disk i st

/-- Rounding to the nearest integer (half up), standing in for the
single-precision `rintf` of `calculate_vdisks`; none of the theorems
below depend on the rounded values. -/
def natRound (a b : Nat) : Nat := if b = 0 then 0 else (2 * a + b) / (2 * b)

/-- Embedding of `calculate_vdisks`: every disk gets
`rintf(MD_DEFAULT_VDISKS * space / avg)` vdisks where
`avg = total / nr_disks` (integer division in the C). -/
def calculate_vdisks (ds : List Disk) (total : Nat) : List Disk :=
  ds.map (fun d =>
    { d with nr_vdisks := natRound (MD_DEFAULT_VDISKS * d.space)
                            (total / ds.length) })

/-- Record each disk's `init_path_space` result in its space field. -/
def upd_spaces (env : String → Nat) (ds : List Disk) : List Disk :=
  ds.map (fun d => { d with space := env d.path })

/-- Index of the first disk whose `init_path_space` result is zero — the
disk the `reinit` loop of `md_init_space` removes before restarting. -/
def first_broken (env : String → Nat) : List Disk → Option Nat
  | [] => none
  | d :: rest =>
    if env d.path = 0 then some 0 else (first_broken env rest).map (· + 1)

/-- Total of the per-path sizes over a disk list. -/
def sum_spaces (env : String → Nat) (ds : List Disk) : Nat :=
  (ds.map (fun d => env d.path)).sum

/-- The disks surviving `md_init_space`: those whose `init_path_space`
result is nonzero, in array order. -/
def survivors (env : String → Nat) (ds : List Disk) : List Disk :=
  ds.filter (fun d => env d.path != 0)

/-- Embedding of the `reinit` loop of `md_init_space`: with no disks the
result is 0 and the state (in particular the ring) is left untouched;
when some disk's size comes back 0 it is removed and the whole loop
restarts; otherwise the spaces are recorded, the vdisk counts are
recomputed and the ring is rebuilt, and `sys->enable_md` is raised.  Each
restart removes one disk, so `md_disks.length + 1` fuel always
suffices. -/
def md_init_space_go (env : String → Nat) : Nat → MDState → Nat × MDState
  | 0, st => (0, st)
  | fuel + 1, st =>
    if st.md_disks = [] then (0, st)
    else
      match first_broken env st.md_disks with
      | some i =>
        md_init_space_go env fuel { st with md_disks := st.md_disks.eraseIdx i }
      | none =>
        (sum_spaces env st.md_disks,
         { st with
            md_disks := calculate_vdisks (upd_spaces env st.md_disks)
                          (sum_spaces env st.md_disks),
            md_vds := disks_to_vdisks
                        (calculate_vdisks (upd_spaces env st.md_disks)
                          (sum_spaces env st.md_disks)),
            enable_md := true })

/-- Embedding of `md_init_space`. -/
def md_init_space (env : String → Nat) (st : MDState) : Nat × MDState :=
  md_init_space_go env (st.md_disks.length + 1) st

/-- Embedding of `md_do_recover` (the `done` step of the work item
`md_handle_eio` queues): a path already removed is ignored; otherwise the
disk is removed, `sys->disk_space` is recomputed by `md_init_space`, and
recovery is kicked iff `md_nr_disks > 0` afterwards (second
component). -/
def md_do_recover (env : String → Nat) (st : MDState) (fault : String) :
    MDState × Bool :=
  match path_to_disk_idx st.md_disks fault with
  | none => (st, false)
  | some i =>
    let r := md_init_space env { st with md_disks := st.md_disks.eraseIdx i }
    ({ r.2 with disk_space := r.1 }, decide (0 < r.2.md_disks.length))

/-- Embedding of `md_handle_eio`: `EIO` when multi-disk is disabled or no
disk is online, otherwise a work item tagged with the faulty path (second
component; its `done` step is `md_do_recover`) is queued and
`NETWORK_ERROR` is returned. -/
def md_handle_eio (st : MDState) (fault : String) : SDRes × Option String :=
  if st.enable_md = false then (SDRes.eio, none)
  else if st.md_disks.length = 0 then (SDRes.eio, none)
  else (SDRes.network_error, some fault)

/-- The strtok loop of `do_plug_unplug`: apply `md_add_disk` or
`md_del_disk` to each comma-separated token in order. -/
def plug_loop (mk : String → Bool) (paths : List String) (plug : Bool)
    (st : MDState) : MDState :=
  paths.foldl (fun s p => if plug then md_add_disk mk p s else md_del_disk p s) st

/-- Embedding of `do_plug_unplug`: mutate the array; when the disk count
did not change bail out with the initial `ret = SD_RES_UNKNOWN`;
otherwise recompute `sys->disk_space` via `md_init_space`, kick recovery
iff any disk remains (third component) and return `SD_RES_SUCCESS`. -/
def do_plug_unplug (env : String → Nat) (mk : String → Bool)
    (paths : List String) (plug : Bool) (st : MDState) :
    SDRes × MDState × Bool :=
  if (plug_loop mk paths plug st).md_disks.length = st.md_disks.length then
    (SDRes.unknown, plug_loop mk paths plug st, false)
  else
    (SDRes.success,
     { (md_init_space env (plug_loop mk paths plug st)).2 with
        disk_space := (md_init_space env (plug_loop mk paths plug st)).1 },
     decide (0 < (md_init_space env (plug_loop mk paths plug st)).2.md_disks.length))

/-- Embedding of `md_plug_disks`. -/
def md_plug_disks (env : String → Nat) (mk : String → Bool)
    (paths : List String) (st : MDState) : SDRes × MDState × Bool :=
  do_plug_unplug env mk paths true st

/-- Embedding of `md_unplug_disks`. -/
def md_unplug_disks (env : String → Nat) (mk : String → Bool)
    (paths : List String) (st : MDState) : SDRes × MDState × Bool :=
  do_plug_unplug env mk paths false st

/-- An environment in which every path is healthy with one byte free. -/
def env_one : String → Nat := fun _ => 1

/-- An environment in which every path is broken. -/
def env_zero : String → Nat := fun _ => 0

/-- An `xmkdir` that always succeeds. -/
def mk_always : String → Bool := fun _ => true

/-- One-disk state for claim C5. -/
def st5 : MDState :=
  { md_disks := [⟨"/d0", 128, 7⟩], md_vds := [⟨0, 3⟩], enable_md := true,
    disk_space := 7 }

/-- Two-disk state for the C6 counterexample; the ring is non-empty. -/
def st6 : MDState :=
  { md_disks := [⟨"/d0", 128, 1⟩, ⟨"/d1", 128, 1⟩], md_vds := [⟨0, 5⟩],
    enable_md := true, disk_space := 2 }

/-- One-disk state for the C7 counterexample. -/
def st7 : MDState :=
  { md_disks := [⟨"/d0", 128, 1⟩], md_vds := [⟨0, 9⟩], enable_md := true,
    disk_space := 1 }

/-- The empty initial md state (no disks plugged, md disabled). -/
def md_empty : MDState :=
  { md_disks := [], md_vds := [], enable_md := false, disk_space := 0 }

/-- The `i`-th of an unbounded family of pairwise distinct paths. -/
def pathN (i : Nat) : String := String.mk (List.replicate (i + 1) 'a')

/-- Plug `n` distinct fresh paths one after the other, as a sequence of
`md_add_disk` calls all of whose `xmkdir`s succeed. -/
def add_many (n : Nat) : MDState :=
  (List.range n).foldl (fun st i => md_add_disk mk_always (pathN i) st) md_empty

/-! ### Work-queue theorems -/

/-- C3 counterexample: in state `wiC3` at `now = 0` the time conjunct of
the shrink predicate fails (`now < tm_end_of_protection`), yet
`wq_need_shrink` leaves the timestamp at 2000 instead of advancing it to
`now + 1000` as the claim demands. -/
theorem wq_need_shrink_no_advance_cex :
    (wq_need_shrink wiC3 0).1 = false ∧
    ¬ wiC3.tm_end_of_protection ≤ 0 ∧
    (wq_need_shrink wiC3 0).2.tm_end_of_protection ≠ 0 + WQ_PROTECTION_PERIOD := by
  refine ⟨by decide, by decide, by decide⟩

/-- C3 (amended): the shrink decision holds exactly when
`pending + running ≤ threads / 2` and `end_of_protection ≤ now`; the
timestamp is advanced to `now + 1000` exactly when the load conjunct
fails (when only the time conjunct fails the state is untouched); when the
decision holds the worker decrements `nr_threads` and `nr_running` and
exits. -/
theorem worker_shrink_spec (wi : WorkerInfo) (now : Nat) :
    ((wq_need_shrink wi now).1 = true ↔
      wi.nr_pending + wi.nr_running ≤ wi.nr_threads / 2 ∧
        wi.tm_end_of_protection ≤ now) ∧
    (wi.nr_threads / 2 < wi.nr_pending + wi.nr_running →
      (wq_need_shrink wi now).2.tm_end_of_protection =
        now + WQ_PROTECTION_PERIOD) ∧
    (wi.nr_pending + wi.nr_running ≤ wi.nr_threads / 2 →
      (wq_need_shrink wi now).2 = wi) ∧
    ((wq_need_shrink wi now).1 = true →
      worker_check_shrink wi now =
        (true, { wi with nr_running := wi.nr_running - 1,
                          nr_threads := wi.nr_threads - 1 })) := by
  by_cases h : wi.nr_pending + wi.nr_running ≤ wi.nr_threads / 2
  · have hs : wq_need_shrink wi now = (decide (wi.tm_end_of_protection ≤ now), wi) := by
      unfold wq_need_shrink
      rw [if_pos h]
    refine ⟨by rw [hs]; simp [h], fun hlt => absurd h (by omega),
      fun _ => by rw [hs], fun ht => ?_⟩
    unfold worker_check_shrink
    rw [hs] at ht ⊢
    simp only at ht
    simp only [ht, if_pos]
  · have hs : wq_need_shrink wi now =
        (false, { wi with tm_end_of_protection := now + WQ_PROTECTION_PERIOD }) := by
      unfold wq_need_shrink
      rw [if_neg h]
    refine ⟨by rw [hs]; simp [h], fun _ => by rw [hs], fun hle => absurd hle h,
      fun ht => ?_⟩
    rw [hs] at ht
    simp at ht

/-- C3 witness: in state `wiC3w` at `now = 500` the shrink decision fires
and the worker exits with both counters decremented. -/
theorem worker_shrink_spec_witness :
    (wq_need_shrink wiC3w 500).1 = true →
    worker_check_shrink wiC3w 500 =
      (true, { wiC3w with nr_running := wiC3w.nr_running - 1,
                          nr_threads := wiC3w.nr_threads - 1 }) :=
  (worker_shrink_spec wiC3w 500).2.2.2

/-- C4: the grow decision fires exactly when
`threads < pending + running` and `threads * 2 ≤ roof`, where the roof is
1 for ORDERED, twice the node count for DYNAMIC and `SIZE_MAX`
(effectively unbounded) for UNLIMITED; when it fires the timestamp is
advanced to `now + 1000`, and `queue_work` raises the thread count to
`min (threads * 2) roof`.  The hypothesis rules out the (physically
impossible) wrap of the `size_t` multiplication. -/
theorem wq_need_grow_fire_iff (wi : WorkerInfo) (nr_nodes now : Nat) :
    (wq_need_grow wi nr_nodes now).1 = true ↔
      wi.nr_threads < wi.nr_pending + wi.nr_running ∧
        wi.nr_threads * 2 % U64 ≤ wq_get_roof wi.tc nr_nodes := by
  unfold wq_need_grow
  split
  next hc => simpa using hc
  next hc => simpa using hc

theorem wq_need_grow_eq_of_fire (wi : WorkerInfo) (nr_nodes now : Nat)
    (hf : (wq_need_grow wi nr_nodes now).1 = true) :
    wq_need_grow wi nr_nodes now =
      (true, { wi with tm_end_of_protection := now + WQ_PROTECTION_PERIOD }) := by
  unfold wq_need_grow at hf ⊢
  split at hf
  next hc => rw [if_pos hc]
  next hc => simp at hf

/-- C4: the grow decision fires exactly when
`threads < pending + running` and `threads * 2 ≤ roof`, where the roof is
1 for ORDERED, twice the node count for DYNAMIC and `SIZE_MAX`
(effectively unbounded) for UNLIMITED; when it fires the timestamp is
advanced to `now + 1000`, and `queue_work` raises the thread count to
`min (threads * 2) roof`.  The hypothesis rules out the (physically
impossible) wrap of the `size_t` multiplication. -/
theorem wq_grow_spec (wi : WorkerInfo) (nr_nodes now : Nat)
    (h : wi.nr_threads * 2 < 2 ^ 64) :
    ((wq_need_grow wi nr_nodes now).1 = true ↔
      wi.nr_threads < wi.nr_pending + wi.nr_running ∧
        wi.nr_threads * 2 ≤ wq_get_roof wi.tc nr_nodes) ∧
    ((wq_need_grow wi nr_nodes now).1 = true →
      (wq_need_grow wi nr_nodes now).2.tm_end_of_protection =
        now + WQ_PROTECTION_PERIOD) ∧
    wq_get_roof WqTc.ordered nr_nodes = 1 ∧
    wq_get_roof WqTc.dynamic nr_nodes = 2 * nr_nodes ∧
    wi.nr_threads * 2 ≤ wq_get_roof WqTc.unlimited nr_nodes ∧
    ((wq_need_grow { wi with nr_pending := wi.nr_pending + 1 }
        nr_nodes now).1 = true →
      (queue_work wi nr_nodes now).nr_threads =
        min (wi.nr_threads * 2) (wq_get_roof wi.tc nr_nodes)) := by
  have hmod : wi.nr_threads * 2 % U64 = wi.nr_threads * 2 :=
    Nat.mod_eq_of_lt h
  refine ⟨?_, ?_, rfl, ?_, ?_, ?_⟩
  · rw [wq_need_grow_fire_iff, hmod]
  · intro hf
    rw [wq_need_grow_eq_of_fire wi nr_nodes now hf]
  · simp [wq_get_roof, Nat.mul_comm]
  · simp only [wq_get_roof, SIZE_MAX]
    omega
  · intro hg
    have heq := wq_need_grow_eq_of_fire _ nr_nodes now hg
    have h2 : wi.nr_threads * 2 ≤ wq_get_roof wi.tc nr_nodes := by
      have h3 := (wq_need_grow_fire_iff _ nr_nodes now).mp hg
      have h4 := h3.2
      simp only at h4
      rw [hmod] at h4
      exact h4
    unfold queue_work
    rw [heq]
    simp only [create_worker_threads]
    omega

/-- C4 witness: in state `wiC4w` (dynamic queue, 4 nodes, one thread, two
items of load) the grow predicate fires and `queue_work` doubles the
thread pool to `min (1 * 2) 8 = 2`. -/
theorem wq_grow_spec_witness :
    wiC4w.nr_threads * 2 < 2 ^ 64 ∧
    (queue_work wiC4w 4 77).nr_threads =
      min (wiC4w.nr_threads * 2) (wq_get_roof wiC4w.tc 4) :=
  ⟨by decide, (wq_grow_spec wiC4w 4 77 (by decide)).2.2.2.2.2 (by decide)⟩

/-! ### Ring-lookup theorems (C1) -/

/-- Once the binary-search loop of `oid_to_vdisk_from` reaches the state
`start = end = 0` with the searched id equal to `vds[0].id`, it never
leaves it: `pos` is recomputed as 0 and `vds[0].id < id` is false, so the
iteration repeats forever regardless of fuel. -/
theorem ringC1_get0 : vdsGet ringC1 0 = ⟨0, oid_hash 0⟩ := rfl

theorem ringC1_get1 : vdsGet ringC1 1 = ⟨1, oid_hash 0 + 1⟩ := rfl

theorem oid_search_stuck_zero (fuel : Nat) :
    oid_search ringC1 (oid_hash 0) fuel 0 0 = none := by
  induction fuel with
  | zero => rfl
  | succ n ih => simp [oid_search, ringC1_get0, ih]

/-- C1 (code bug): on the two-entry ring `ringC1` and oid 0 — whose hash
is exactly the minimum ring id — the binary search of
`oid_to_vdisk_from` never terminates: for every iteration bound the loop
is still running.  The claim states the lookup is total and would return
entry 0 (the lowest entry with `id ≥ h`). -/
theorem oid_lookup_diverges_on_min_id (fuel : Nat) :
    oid_to_vdisk_from ringC1 0 fuel = none := by
  have hnc : ¬((vdsGet ringC1 (ringC1.length - 1)).id < oid_hash 0 ∨
      oid_hash 0 < (vdsGet ringC1 0).id) := by decide
  have hpre : oid_to_vdisk_from ringC1 0 fuel =
      oid_search ringC1 (oid_hash 0) fuel 0 1 := by
    unfold oid_to_vdisk_from
    rw [if_neg hnc]
    rfl
  rw [hpre]
  cases fuel with
  | zero => rfl
  | succ n => simp [oid_search, ringC1_get0, oid_search_stuck_zero]

/-! ### Placement theorems (C8) -/

/-- C8 counterexample: `dsA` and `dsB` are permutations of each other
(same paths, same vdisk counts), yet object 0 is placed on disk "a" by
the first array and on disk "b" by the second: the vdisk ids fold in the
remaining-disk counter, which depends on the traversal position. -/
theorem path_for_oid_order_dependent_cex :
    dsA.Perm dsB ∧ path_for_oid dsA 0 100 ≠ path_for_oid dsB 0 100 :=
  ⟨List.Perm.swap _ _ _, by decide⟩

theorem disk_points_congr (n k : Nat) (d1 d2 : Disk)
    (hp : d1.path = d2.path) (hn : d1.nr_vdisks = d2.nr_vdisks) :
    disk_points n k d1 = disk_points n k d2 := by
  unfold disk_points
  rw [hp, hn]

theorem points_go_congr (n : Nat) :
    ∀ (l1 l2 : List Disk) (k : Nat),
      l1.map (fun d => (d.path, d.nr_vdisks)) =
        l2.map (fun d => (d.path, d.nr_vdisks)) →
      points_go n k l1 = points_go n k l2 := by
  intro l1
  induction l1 with
  | nil =>
    intro l2 k h
    have h2 : l2 = [] := by simpa using h.symm
    rw [h2]
  | cons d1 t1 ih =>
    intro l2 k h
    cases l2 with
    | nil => simp at h
    | cons d2 t2 =>
      simp only [List.map_cons, List.cons.injEq, Prod.mk.injEq] at h
      unfold points_go
      rw [disk_points_congr n k d1 d2 h.1.1 h.1.2, ih t2 (k + 1) h.2]

theorem map_path_nr_length {l1 l2 : List Disk}
    (h : l1.map (fun d => (d.path, d.nr_vdisks)) =
      l2.map (fun d => (d.path, d.nr_vdisks))) :
    l1.length = l2.length := by
  have := congrArg List.length h
  simpa using this

theorem disks_to_vdisks_congr (l1 l2 : List Disk)
    (h : l1.map (fun d => (d.path, d.nr_vdisks)) =
      l2.map (fun d => (d.path, d.nr_vdisks))) :
    disks_to_vdisks l1 = disks_to_vdisks l2 := by
  unfold disks_to_vdisks
  rw [map_path_nr_length h, points_go_congr l2.length l1 l2 0 h]

theorem getD_path_congr :
    ∀ (l1 l2 : List Disk) (i : Nat),
      l1.map (fun d => (d.path, d.nr_vdisks)) =
        l2.map (fun d => (d.path, d.nr_vdisks)) →
      (l1.getD i ⟨"", 0, 0⟩).path = (l2.getD i ⟨"", 0, 0⟩).path := by
  intro l1
  induction l1 with
  | nil =>
    intro l2 i h
    have h2 : l2 = [] := by simpa using h.symm
    rw [h2]
  | cons d1 t1 ih =>
    intro l2 i h
    cases l2 with
    | nil => simp at h
    | cons d2 t2 =>
      simp only [List.map_cons, List.cons.injEq, Prod.mk.injEq] at h
      cases i with
      | zero => simpa using h.1.1
      | succ j => simpa using ih t2 j h.2

/-- C8 (amended): the oid-to-path mapping is a pure function of the disk
array and depends only on the sequence of (path, vdisk count) pairs in
array order — in particular it is independent of the disks' recorded free
space.  It is NOT independent of insertion order (see the
counterexample): `disks_to_vdisks` seeds each id with the remaining-disk
counter, so a permutation of the array may move objects. -/
theorem path_for_oid_congr (ds1 ds2 : List Disk) (oid fuel : Nat)
    (h : ds1.map (fun d => (d.path, d.nr_vdisks)) =
      ds2.map (fun d => (d.path, d.nr_vdisks))) :
    path_for_oid ds1 oid fuel = path_for_oid ds2 oid fuel := by
  unfold path_for_oid
  rw [disks_to_vdisks_congr ds1 ds2 h]
  cases oid_to_vdisk_from (disks_to_vdisks ds2) oid fuel with
  | none => rfl
  | some vd => exact congrArg some (getD_path_congr ds1 ds2 vd.idx h)

/-- C8 witness: `dsW1` and `dsW2` agree on paths and vdisk counts but not
on free space, and map object 0 to the same path. -/
theorem path_for_oid_congr_witness :
    path_for_oid dsW1 0 100 = path_for_oid dsW2 0 100 :=
  path_for_oid_congr dsW1 dsW2 0 100 rfl

/-! ### Path-initialization theorems (C2) -/

/-- C2 counterexample: in `envC2` every step succeeds and the attribute
is absent, yet `init_path_space` returns and records the statvfs
free-space figure (1 × 100 bytes), not the 5-byte sum of the live
objects' sizes: the call `get_path_size(path, NULL)` passes a null `used`
pointer, which skips the object scan entirely. -/
theorem init_path_space_not_object_sum_cex :
    (init_path_space envC2).1 = free_size envC2 ∧
    (init_path_space envC2).1 ≠ envC2.objects.sum ∧
    (init_path_space envC2).2 ≠ GetxRes.ok envC2.objects.sum :=
  ⟨by decide, by decide, by decide⟩

theorem init_path_space_fail (e : PathEnv)
    (h : e.xattr_ok = false ∨ e.mkdir_stale_ok = false ∨
      e.getx = GetxRes.err ∨
      (e.getx = GetxRes.nodata ∧
        ((get_path_size e false).1 = 0 ∨ e.setxattr_ok = false))) :
    (init_path_space e).1 = 0 := by
  unfold init_path_space
  rcases h with h | h | h | ⟨h1, h2⟩
  · rw [if_pos h]
  · by_cases hx : e.xattr_ok = false
    · rw [if_pos hx]
    · rw [if_neg hx, if_pos h]
  · by_cases hx : e.xattr_ok = false
    · rw [if_pos hx]
    · by_cases hm : e.mkdir_stale_ok = false
      · rw [if_neg hx, if_pos hm]
      · rw [if_neg hx, if_neg hm, h]
  · by_cases hx : e.xattr_ok = false
    · rw [if_pos hx]
    · by_cases hm : e.mkdir_stale_ok = false
      · rw [if_neg hx, if_pos hm]
      · rw [if_neg hx, if_neg hm, h1]
        rcases h2 with h2 | h2
        · simp only [if_pos h2]
        · by_cases hz : (get_path_size e false).1 = 0
          · simp only [if_pos hz]
          · simp only [if_neg hz, if_pos h2]

/-- C2 (amended): on a path whose `user.md.size` attribute is absent and
on which every step succeeds, `init_path_space` records and returns the
free-space figure obtained from `statvfs` (`f_frsize * f_bfree`) — not a
sum of object sizes, since `get_path_size` is called with a null `used`
pointer; and any failing step (no xattr support, failed mkdir of
`.stale`, a `getxattr` error other than `ENODATA`, a zero size, or a
failed `setxattr`) makes it return 0. -/
theorem init_path_space_spec (env : PathEnv)
    (hx : env.xattr_ok = true) (hm : env.mkdir_stale_ok = true)
    (hg : env.getx = GetxRes.nodata) (hs : free_size env ≠ 0)
    (hv : env.statvfs_ok = true) (hw : env.setxattr_ok = true) :
    init_path_space env = (free_size env, GetxRes.ok (free_size env)) ∧
    ∀ e : PathEnv,
      (e.xattr_ok = false ∨ e.mkdir_stale_ok = false ∨
        e.getx = GetxRes.err ∨
        (e.getx = GetxRes.nodata ∧
          ((get_path_size e false).1 = 0 ∨ e.setxattr_ok = false))) →
      (init_path_space e).1 = 0 := by
  refine ⟨?_, fun e h => init_path_space_fail e h⟩
  have hgps : (get_path_size env false).1 = free_size env := by
    unfold get_path_size
    rw [hv]
    simp
  unfold init_path_space
  rw [hx, hm, hg]
  simp only [Bool.true_eq_false, if_false]
  rw [hgps, if_neg hs, hw]
  simp only [Bool.true_eq_false, if_false]

/-- C2 witness: applying the amended theorem to the concrete environment
`envC2` (all steps succeed, attribute absent, 100 free bytes). -/
theorem init_path_space_spec_witness :
    init_path_space envC2 = (free_size envC2, GetxRes.ok (free_size envC2)) :=
  (init_path_space_spec envC2 rfl rfl rfl (by decide) rfl rfl).1

/-! ### Multi-disk state lemmas -/

theorem survivors_nil (env : String → Nat) : survivors env [] = [] := rfl

theorem survivors_cons_pos (env : String → Nat) (d : Disk) (rest : List Disk)
    (hz : ¬ env d.path = 0) :
    survivors env (d :: rest) = d :: survivors env rest := by
  simp [survivors, List.filter_cons, hz]

theorem survivors_cons_zero (env : String → Nat) (d : Disk) (rest : List Disk)
    (hz : env d.path = 0) :
    survivors env (d :: rest) = survivors env rest := by
  simp [survivors, List.filter_cons, hz]

theorem first_broken_none_survivors (env : String → Nat) :
    ∀ ds : List Disk, first_broken env ds = none → survivors env ds = ds := by
  intro ds
  induction ds with
  | nil => intro _; rfl
  | cons d rest ih =>
    intro h
    unfold first_broken at h
    by_cases hz : env d.path = 0
    · rw [if_pos hz] at h
      exact absurd h (by simp)
    · rw [if_neg hz] at h
      cases hfb : first_broken env rest with
      | some j => rw [hfb] at h; simp at h
      | none => rw [survivors_cons_pos env d rest hz, ih hfb]

theorem first_broken_some_lt (env : String → Nat) :
    ∀ (ds : List Disk) (i : Nat), first_broken env ds = some i →
      i < ds.length := by
  intro ds
  induction ds with
  | nil => intro i h; simp [first_broken] at h
  | cons d rest ih =>
    intro i h
    unfold first_broken at h
    by_cases hz : env d.path = 0
    · rw [if_pos hz] at h
      simp only [Option.some.injEq] at h
      simp only [List.length_cons]
      omega
    · rw [if_neg hz] at h
      cases hfb : first_broken env rest with
      | none => rw [hfb] at h; exact Option.noConfusion h
      | some j =>
        rw [hfb] at h
        simp only [Option.map_some', Option.some.injEq] at h
        have := ih j hfb
        simp only [List.length_cons]
        omega

theorem first_broken_some_survivors (env : String → Nat) :
    ∀ (ds : List Disk) (i : Nat), first_broken env ds = some i →
      survivors env (ds.eraseIdx i) = survivors env ds := by
  intro ds
  induction ds with
  | nil => intro i h; simp [first_broken] at h
  | cons d rest ih =>
    intro i h
    unfold first_broken at h
    by_cases hz : env d.path = 0
    · rw [if_pos hz] at h
      simp only [Option.some.injEq] at h
      subst h
      rw [List.eraseIdx_cons_zero, survivors_cons_zero env d rest hz]
    · rw [if_neg hz] at h
      cases hfb : first_broken env rest with
      | none => rw [hfb] at h; exact Option.noConfusion h
      | some j =>
        rw [hfb] at h
        simp only [Option.map_some', Option.some.injEq] at h
        subst h
        rw [List.eraseIdx_cons_succ, survivors_cons_pos env d _ hz,
          survivors_cons_pos env d rest hz, ih j hfb]

/-- Closed form of the `reinit` loop: it removes exactly the zero-space
disks (in restart order, which preserves the relative order of the
survivors); with no survivor it stops with an empty array and an
untouched ring, otherwise it records sizes, recomputes vdisk counts,
rebuilds the ring and enables multi-disk mode. -/
theorem md_init_space_go_eq (env : String → Nat) :
    ∀ (fuel : Nat) (st : MDState), st.md_disks.length < fuel →
      md_init_space_go env fuel st =
        if survivors env st.md_disks = [] then (0, { st with md_disks := [] })
        else
          (sum_spaces env (survivors env st.md_disks),
           { st with
              md_disks := calculate_vdisks
                            (upd_spaces env (survivors env st.md_disks))
                            (sum_spaces env (survivors env st.md_disks)),
              md_vds := disks_to_vdisks (calculate_vdisks
                            (upd_spaces env (survivors env st.md_disks))
                            (sum_spaces env (survivors env st.md_disks))),
              enable_md := true }) := by
  intro fuel
  induction fuel with
  | zero => intro st h; exact absurd h (Nat.not_lt_zero _)
  | succ n ih =>
    intro st h
    obtain ⟨ds, vds, en, sp⟩ := st
    unfold md_init_space_go
    by_cases hnil : ds = []
    · subst hnil
      simp [survivors_nil]
    · simp only [if_neg hnil]
      cases hfb : first_broken env ds with
      | some i =>
        have hlt : i < ds.length := first_broken_some_lt env ds i hfb
        simp only [List.length_cons] at h
        have hlen : (MDState.mk (ds.eraseIdx i) vds en sp).md_disks.length < n := by
          simp only [List.length_eraseIdx_of_lt hlt]
          omega
        have hrec := ih (MDState.mk (ds.eraseIdx i) vds en sp) hlen
        rw [first_broken_some_survivors env ds i hfb] at hrec
        exact hrec
      | none =>
        have hsv : survivors env ds = ds := first_broken_none_survivors env ds hfb
        simp only [hsv, if_neg hnil]

/-- Closed form of `md_init_space`. -/
theorem md_init_space_eq (env : String → Nat) (st : MDState) :
    md_init_space env st =
      if survivors env st.md_disks = [] then (0, { st with md_disks := [] })
      else
        (sum_spaces env (survivors env st.md_disks),
         { st with
            md_disks := calculate_vdisks
                          (upd_spaces env (survivors env st.md_disks))
                          (sum_spaces env (survivors env st.md_disks)),
            md_vds := disks_to_vdisks (calculate_vdisks
                          (upd_spaces env (survivors env st.md_disks))
                          (sum_spaces env (survivors env st.md_disks))),
            enable_md := true }) :=
  md_init_space_go_eq env (st.md_disks.length + 1) st (Nat.lt_succ_self _)

theorem upd_spaces_map_path (env : String → Nat) (ds : List Disk) :
    (upd_spaces env ds).map Disk.path = ds.map Disk.path := by
  simp [upd_spaces]

theorem calculate_vdisks_map_path (ds : List Disk) (total : Nat) :
    (calculate_vdisks ds total).map Disk.path = ds.map Disk.path := by
  simp [calculate_vdisks]

theorem calculate_vdisks_length (ds : List Disk) (total : Nat) :
    (calculate_vdisks ds total).length = ds.length := by
  simp [calculate_vdisks]

theorem upd_spaces_length (env : String → Nat) (ds : List Disk) :
    (upd_spaces env ds).length = ds.length := by
  simp [upd_spaces]

theorem md_add_disk_md_vds (mk : String → Bool) (p : String) (st : MDState) :
    (md_add_disk mk p st).md_vds = st.md_vds := by
  unfold md_add_disk
  cases path_to_disk_idx st.md_disks p with
  | some i => rfl
  | none =>
    by_cases hm : mk p = false
    · rw [if_pos hm]
    · rw [if_neg hm]

theorem md_del_disk_md_vds (p : String) (st : MDState) :
    (md_del_disk p st).md_vds = st.md_vds := by
  unfold md_del_disk
  cases path_to_disk_idx st.md_disks p with
  | none => rfl
  | some i => rfl

theorem plug_loop_md_vds (mk : String → Bool) (plug : Bool) :
    ∀ (paths : List String) (st : MDState),
      (plug_loop mk paths plug st).md_vds = st.md_vds := by
  intro paths
  induction paths with
  | nil => intro st; rfl
  | cons p rest ih =>
    intro st
    unfold plug_loop at ih ⊢
    rw [List.foldl_cons, ih]
    cases plug <;> simp [md_add_disk_md_vds, md_del_disk_md_vds]

theorem pathN_inj {i j : Nat} (h : pathN i = pathN j) : i = j := by
  unfold pathN at h
  have h2 : List.replicate (i + 1) 'a' = List.replicate (j + 1) 'a' :=
    congrArg String.data h
  have h3 := congrArg List.length h2
  simp only [List.length_replicate] at h3
  omega

theorem path_to_disk_idx_eq_none (p : String) :
    ∀ l : List Disk, path_to_disk_idx l p = none ↔ p ∉ l.map Disk.path := by
  intro l
  induction l with
  | nil => simp [path_to_disk_idx]
  | cons d rest ih =>
    by_cases hd : d.path = p
    · simp [path_to_disk_idx, hd]
    · have hd2 : ¬ p = d.path := fun hh => hd hh.symm
      simp [path_to_disk_idx, Option.map_eq_none', hd, hd2, ih]

theorem md_add_disk_fresh (st : MDState) (p : String)
    (h : p ∉ st.md_disks.map Disk.path) :
    (md_add_disk mk_always p st).md_disks = st.md_disks ++ [⟨p, 0, 0⟩] := by
  unfold md_add_disk
  rw [(path_to_disk_idx_eq_none p st.md_disks).mpr h]
  rfl

theorem add_many_succ (m : Nat) :
    add_many (m + 1) = md_add_disk mk_always (pathN m) (add_many m) := by
  unfold add_many
  rw [List.range_succ, List.foldl_append]
  rfl

theorem add_many_paths :
    ∀ n : Nat, (add_many n).md_disks.map Disk.path = (List.range n).map pathN := by
  intro n
  induction n with
  | zero => rfl
  | succ m ih =>
    have hfresh : pathN m ∉ (add_many m).md_disks.map Disk.path := by
      rw [ih]
      intro hmem
      obtain ⟨i, hi, hpi⟩ := List.mem_map.mp hmem
      have h2 := pathN_inj hpi
      rw [List.mem_range] at hi
      omega
    rw [add_many_succ, md_add_disk_fresh _ _ hfresh, List.map_append, ih,
      List.range_succ, List.map_append]
    rfl

/-! ### Error-handling theorems (C5, C6, C7) and bounds (C10) -/

/-- C5 counterexample: with exactly one disk online (state `st5`, md
enabled) `md_handle_eio` returns `NETWORK_ERROR`, not `EIO`, and the
recovery work item it queues does remove the last disk: after
`md_do_recover` the disk count is 0. -/
theorem md_handle_eio_last_disk_cex :
    (md_handle_eio st5 "/d0").1 = SDRes.network_error ∧
    (md_handle_eio st5 "/d0").1 ≠ SDRes.eio ∧
    (md_do_recover env_one st5 "/d0").1.md_disks.length = 0 :=
  ⟨by decide, by decide, by decide⟩

/-- C5 (amended): with md enabled and exactly one disk online,
`md_handle_eio` queues a recovery item for the faulty path and returns
`NETWORK_ERROR`; the queued `md_do_recover` then removes the last disk
(count drops to 0) without kicking recovery, and only afterwards — with
zero disks online — does `md_handle_eio` return `EIO`. -/
theorem md_last_disk_recover_spec (env : String → Nat) (st : MDState)
    (d : Disk) (fault p2 : String) (he : st.enable_md = true)
    (hd : st.md_disks = [d]) (hp : d.path = fault) :
    md_handle_eio st fault = (SDRes.network_error, some fault) ∧
    (md_do_recover env st fault).1.md_disks = [] ∧
    (md_do_recover env st fault).2 = false ∧
    md_handle_eio (md_do_recover env st fault).1 p2 = (SDRes.eio, none) := by
  obtain ⟨ds, vds, en, sp⟩ := st
  simp only at he hd
  subst he
  subst hd
  have hidx : path_to_disk_idx [d] fault = some 0 := by
    simp [path_to_disk_idx, hp]
  have hrec : md_do_recover env (MDState.mk [d] vds true sp) fault =
      (MDState.mk [] vds true 0, false) := by
    simp [md_do_recover, hidx, md_init_space_eq, survivors_nil]
  refine ⟨by simp [md_handle_eio], ?_, ?_, ?_⟩
  · rw [hrec]
  · rw [hrec]
  · rw [hrec]
    simp [md_handle_eio]

/-- C5 witness: the concrete one-disk state `st5`. -/
theorem md_last_disk_recover_spec_witness :
    md_handle_eio st5 "/d0" = (SDRes.network_error, some "/d0") ∧
    (md_do_recover env_one st5 "/d0").1.md_disks = [] :=
  ⟨(md_last_disk_recover_spec env_one st5 ⟨"/d0", 128, 7⟩ "/d0" "/dx"
      rfl rfl rfl).1,
   (md_last_disk_recover_spec env_one st5 ⟨"/d0", 128, 7⟩ "/d0" "/dx"
      rfl rfl rfl).2.1⟩

/-- C6 counterexample: in state `st6` with every path broken
(`env_zero`), `md_do_recover "/d0"` removes `/d0`, then the reinit loop
also drops `/d1`, and with no disk left the ring is NOT recomputed: it
stays the stale ring of `st6` instead of matching the now-empty disk
array. -/
theorem md_do_recover_ring_stale_cex :
    (md_do_recover env_zero st6 "/d0").1.md_vds ≠
      disks_to_vdisks (md_do_recover env_zero st6 "/d0").1.md_disks ∧
    (md_do_recover env_zero st6 "/d0").1.md_vds = st6.md_vds :=
  ⟨by decide, by decide⟩

theorem md_do_recover_some (env : String → Nat) (st : MDState)
    (fault : String) (i : Nat)
    (hi : path_to_disk_idx st.md_disks fault = some i) :
    md_do_recover env st fault =
      if survivors env (st.md_disks.eraseIdx i) = [] then
        ({ st with md_disks := [], disk_space := 0 }, false)
      else
        ({ st with
            md_disks := calculate_vdisks
              (upd_spaces env (survivors env (st.md_disks.eraseIdx i)))
              (sum_spaces env (survivors env (st.md_disks.eraseIdx i))),
            md_vds := disks_to_vdisks (calculate_vdisks
              (upd_spaces env (survivors env (st.md_disks.eraseIdx i)))
              (sum_spaces env (survivors env (st.md_disks.eraseIdx i)))),
            enable_md := true,
            disk_space :=
              sum_spaces env (survivors env (st.md_disks.eraseIdx i)) },
         true) := by
  unfold md_do_recover
  split
  next hh => rw [hi] at hh; exact Option.noConfusion hh
  next j hh =>
    rw [hi] at hh
    injection hh with hj
    subst hj
    rw [md_init_space_eq]
    by_cases hs : survivors env (st.md_disks.eraseIdx i) = []
    · simp [hs]
    · simp [hs, calculate_vdisks_length, upd_spaces_length, List.length_pos]

/-- C6 (amended): `md_handle_eio` returns `EIO` when md is disabled or no
disk is online, and otherwise queues a work item tagged with the faulty
path (whose done step is `md_do_recover`) and returns `NETWORK_ERROR`;
`md_do_recover` leaves the state unchanged on a duplicate report, and
otherwise removes the disk, recomputes the total space over the disks
whose paths still initialize successfully, kicks recovery iff at least
one such disk remains, and rebuilds the ring exactly in that case (when
none remains the previous ring is left in place). -/
theorem md_eio_recover_spec (env : String → Nat) (st : MDState)
    (fault : String) :
    (st.enable_md = false → md_handle_eio st fault = (SDRes.eio, none)) ∧
    (st.enable_md = true → st.md_disks = [] →
      md_handle_eio st fault = (SDRes.eio, none)) ∧
    (st.enable_md = true → st.md_disks ≠ [] →
      md_handle_eio st fault = (SDRes.network_error, some fault)) ∧
    (path_to_disk_idx st.md_disks fault = none →
      md_do_recover env st fault = (st, false)) ∧
    (∀ i, path_to_disk_idx st.md_disks fault = some i →
      (md_do_recover env st fault).1.disk_space =
        sum_spaces env (survivors env (st.md_disks.eraseIdx i)) ∧
      (md_do_recover env st fault).1.md_disks.map Disk.path =
        (survivors env (st.md_disks.eraseIdx i)).map Disk.path ∧
      ((md_do_recover env st fault).2 = true ↔
        survivors env (st.md_disks.eraseIdx i) ≠ []) ∧
      (survivors env (st.md_disks.eraseIdx i) ≠ [] →
        (md_do_recover env st fault).1.md_vds =
          disks_to_vdisks (md_do_recover env st fault).1.md_disks)) := by
  refine ⟨?_, ?_, ?_, ?_, ?_⟩
  · intro h
    simp [md_handle_eio, h]
  · intro h1 h2
    simp [md_handle_eio, h1, h2]
  · intro h1 h2
    simp [md_handle_eio, h1, List.length_eq_zero, h2]
  · intro h
    unfold md_do_recover
    split
    next hh => rfl
    next j hh => rw [h] at hh; exact Option.noConfusion hh
  · intro i hi
    rw [md_do_recover_some env st fault i hi]
    by_cases hs : survivors env (st.md_disks.eraseIdx i) = []
    · rw [if_pos hs]
      refine ⟨by simp [hs, sum_spaces], by simp [hs], by simp [hs],
        fun hc => absurd hs hc⟩
    · rw [if_neg hs]
      refine ⟨rfl, ?_, ?_, fun hc => rfl⟩
      · show (calculate_vdisks
          (upd_spaces env (survivors env (st.md_disks.eraseIdx i)))
          (sum_spaces env (survivors env (st.md_disks.eraseIdx i)))).map
            Disk.path = _
        rw [calculate_vdisks_map_path, upd_spaces_map_path]
      · simp [calculate_vdisks_length, upd_spaces_length, List.length_pos, hs]

/-- C6 witness: the two-disk state `st6` with a fresh faulty path. -/
theorem md_eio_recover_spec_witness :
    md_handle_eio st6 "/d9" = (SDRes.network_error, some "/d9") :=
  (md_eio_recover_spec env_one st6 "/d9").2.2.1 rfl (by decide)

/-- C7 counterexample: plugging the already-present path `/d0` into `st7`
leaves the disk count unchanged, and `do_plug_unplug` then returns
`SD_RES_UNKNOWN` — not success as the claim states. -/
theorem do_plug_unplug_noop_not_success_cex :
    (do_plug_unplug env_one mk_always ["/d0"] true st7).1 = SDRes.unknown ∧
    (do_plug_unplug env_one mk_always ["/d0"] true st7).1 ≠ SDRes.success :=
  ⟨by decide, by decide⟩

theorem do_plug_unplug_changed (env : String → Nat) (mk : String → Bool)
    (paths : List String) (plug : Bool) (st : MDState)
    (h : (plug_loop mk paths plug st).md_disks.length ≠ st.md_disks.length) :
    do_plug_unplug env mk paths plug st =
      if survivors env (plug_loop mk paths plug st).md_disks = [] then
        (SDRes.success,
         MDState.mk [] (plug_loop mk paths plug st).md_vds
           (plug_loop mk paths plug st).enable_md 0, false)
      else
        (SDRes.success,
         MDState.mk
           (calculate_vdisks
             (upd_spaces env (survivors env (plug_loop mk paths plug st).md_disks))
             (sum_spaces env (survivors env (plug_loop mk paths plug st).md_disks)))
           (disks_to_vdisks (calculate_vdisks
             (upd_spaces env (survivors env (plug_loop mk paths plug st).md_disks))
             (sum_spaces env (survivors env (plug_loop mk paths plug st).md_disks))))
           true
           (sum_spaces env (survivors env (plug_loop mk paths plug st).md_disks)),
         true) := by
  unfold do_plug_unplug
  rw [if_neg h, md_init_space_eq]
  by_cases hs : survivors env (plug_loop mk paths plug st).md_disks = []
  · simp [hs]
  · simp [hs, calculate_vdisks_length, upd_spaces_length, List.length_pos]

/-- C7 (amended): a plug/unplug that leaves the disk-array length
unchanged returns `SD_RES_UNKNOWN` (the initial `ret`), not success, and
does not touch the ring; when the length changes it returns
`SD_RES_SUCCESS`, kicks recovery iff at least one disk survives
reinitialization, and rebuilds the ring to match the disk array whenever
any disk survives (with no survivor the array is emptied and the ring
left untouched). -/
theorem do_plug_unplug_spec (env : String → Nat) (mk : String → Bool)
    (paths : List String) (plug : Bool) (st : MDState) :
    ((plug_loop mk paths plug st).md_disks.length = st.md_disks.length →
      do_plug_unplug env mk paths plug st =
        (SDRes.unknown, plug_loop mk paths plug st, false) ∧
      (do_plug_unplug env mk paths plug st).2.1.md_vds = st.md_vds) ∧
    ((plug_loop mk paths plug st).md_disks.length ≠ st.md_disks.length →
      (do_plug_unplug env mk paths plug st).1 = SDRes.success ∧
      ((do_plug_unplug env mk paths plug st).2.2 = true ↔
        survivors env (plug_loop mk paths plug st).md_disks ≠ []) ∧
      (survivors env (plug_loop mk paths plug st).md_disks ≠ [] →
        (do_plug_unplug env mk paths plug st).2.1.md_vds =
          disks_to_vdisks (do_plug_unplug env mk paths plug st).2.1.md_disks) ∧
      (survivors env (plug_loop mk paths plug st).md_disks = [] →
        (do_plug_unplug env mk paths plug st).2.1.md_disks = [] ∧
        (do_plug_unplug env mk paths plug st).2.1.md_vds = st.md_vds)) := by
  constructor
  · intro h
    unfold do_plug_unplug
    rw [if_pos h]
    exact ⟨rfl, plug_loop_md_vds mk plug paths st⟩
  · intro h
    rw [do_plug_unplug_changed env mk paths plug st h]
    by_cases hs : survivors env (plug_loop mk paths plug st).md_disks = []
    · rw [if_pos hs]
      refine ⟨rfl, by simp [hs], fun hc => absurd hs hc,
        fun _ => ⟨rfl, plug_loop_md_vds mk plug paths st⟩⟩
    · rw [if_neg hs]
      refine ⟨rfl, ?_, fun _ => rfl, fun hc => absurd hc hs⟩
      simp [calculate_vdisks_length, upd_spaces_length, List.length_pos, hs]

/-- C7 witness: plugging a fresh path into `st7` changes the count and
returns success. -/
theorem do_plug_unplug_spec_witness :
    (do_plug_unplug env_one mk_always ["/dnew"] true st7).1 = SDRes.success :=
  ((do_plug_unplug_spec env_one mk_always ["/dnew"] true st7).2 (by decide)).1

/-- C10 (code bug): `md_add_disk` performs no bound check whatsoever, so
a sequence of distinct, successfully created paths grows the disk array
past any fixed bound — in particular past `MD_MAX_DISK`, overrunning the
static `md_disks` array (whose size `MD_MAX_DISK` is defined in a header
outside this tree). -/
theorem md_add_disk_unbounded (bound : Nat) :
    bound < (add_many (bound + 1)).md_disks.length := by
  have h := congrArg List.length (add_many_paths (bound + 1))
  simp only [List.length_map, List.length_range] at h
  omega

end SheepdogSpec
